import Mathlib

/-!
# Recurring-post bot: due check, scheduler run and template registry

A shallow embedding of `src/index.js`, a worker that stores message templates in a
key-value namespace, sends the due ones on every timer tick and serves a small HTTP API.

Modelling conventions.

* JavaScript numbers that occur here are integer millisecond counts and integer interval
  magnitudes; they are embedded as `Int` and all arithmetic is exact, as it is for doubles
  as long as the values stay below 2^53.  `Date` objects are taken to be valid (time values
  up to 8.64e15 in absolute value), so `new Date(x).getTime()` is `x`.
* A property that may be missing from a stored JSON object is an `Option`; `none` stands for
  `undefined` and for `null`.
* The key-value namespace is fault free: `get`, `put` and `delete` always complete.  The key
  `"all_templates"` holds an array of strings or nothing, every other key holds a template
  object or nothing.
* The messaging gateway and the clock are explicit parameters.  A gateway call either
  returns a parsed JSON result or throws; a thrown exception is `Except.error`.
-/

namespace Autorecurring

/-! ## Data model -/

/-- A stored template object, with the properties written by the create handler
(lines 155-164) and the `lastSentTime` property added after a dispatch. -/
structure Template where
  id : String
  name : String
  message : String
  /-- The result of `parseInt`; `none` is the JSON `null` that a `NaN` is stored as. -/
  intervalValue : Option Int
  intervalUnit : Option String
  includeImage : Bool
  imageUrl : String
  createdAt : Int
  lastSentTime : Option Int
deriving DecidableEq, Repr

/-- JavaScript `ToNumber` on a number-or-null property: `null` counts as `0` in a product. -/
def toNumber : Option Int → Int
  | none => 0
  | some v => v

/-- JavaScript `!x` for a number-or-missing property: true for `undefined`, `null` and `0`. -/
def isFalsyNumber : Option Int → Bool
  | none => true
  | some v => decide (v = 0)

/-! ## Due check (lines 53-76) -/

/-- The local `intervalMs` of `shouldSendNow` (lines 63-73). -/
def intervalMs (template : Template) : Int :=
  if template.intervalUnit = some "minutes" then
    toNumber template.intervalValue * 60 * 1000
  else if template.intervalUnit = some "hours" then
    toNumber template.intervalValue * 60 * 60 * 1000
  else if template.intervalUnit = some "days" then
    toNumber template.intervalValue * 24 * 60 * 60 * 1000
  else
    24 * 60 * 60 * 1000

/-- The function `shouldSendNow(template, currentTime)`, with `currentTime` given as its
`getTime()`. -/
def shouldSendNow (template : Template) (currentTime : Int) : Bool :=
  if isFalsyNumber template.lastSentTime then
    true
  else
    let lastSent := toNumber template.lastSentTime
    let elapsedMs := currentTime - lastSent
    decide (elapsedMs ≥ intervalMs template)

/-! ## Key-value namespace -/

/-- A JSON value read from the namespace: the array of ids or a template object. -/
inductive Value where
  | ids (list : List String)
  | template (t : Template)
deriving DecidableEq, Repr

/-- The namespace `env.BOT_TEMPLATES`.  `index` is the value under `"all_templates"`,
`records k` the value under any other key `k` (the slot `records "all_templates"` is never
read). -/
structure Store where
  index : Option (List String)
  records : String → Option Template

/-- The namespace with no key at all. -/
def Store.empty : Store :=
  { index := none, records := fun _ => none }

/-- The source expression `env.BOT_TEMPLATES.get(key, { type: "json" })`. -/
def Store.get (store : Store) (key : String) : Option Value :=
  if key = "all_templates" then store.index.map Value.ids
  else (store.records key).map Value.template

/-- The source expression `env.BOT_TEMPLATES.get("all_templates", { type: "json" }) || []`. -/
def Store.getIndex (store : Store) : List String :=
  match store.index with
  | some list => list
  | none => []

/-- The source expression `env.BOT_TEMPLATES.put("all_templates", JSON.stringify(list))`. -/
def Store.putIndex (store : Store) (list : List String) : Store :=
  { store with index := some list }

/-- The source expression `env.BOT_TEMPLATES.put(key, JSON.stringify(template))` for a
template object.  Every caller passes a key that differs from `"all_templates"`. -/
def Store.putTemplate (store : Store) (key : String) (template : Template) : Store :=
  { store with records := fun k => if k = key then some template else store.records k }

/-- The source expression `env.BOT_TEMPLATES.delete(key)`. -/
def Store.delete (store : Store) (key : String) : Store :=
  if key = "all_templates" then { store with index := none }
  else { store with records := fun k => if k = key then none else store.records k }

/-! ## Messaging gateway (lines 78-115) -/

/-- The parsed JSON answer of the messaging service. -/
structure GatewayResult where
  ok : Bool
  description : Option String
deriving DecidableEq, Repr

/-- One call of the messaging service.  The text of a plain message is `none` when the
caller passes `undefined`. -/
inductive SendRequest where
  | message (text : Option String)
  | photo (caption : String) (photoUrl : String)
deriving DecidableEq, Repr

/-- The messaging service as seen by one invocation: the answer to the `n`-th call (counted
from 0) with a given request, or a thrown exception. -/
abbrev Gateway := Nat → SendRequest → Except String GatewayResult

/-- A gateway that answers every call with a result. -/
def Gateway.returning (results : Nat → SendRequest → GatewayResult) : Gateway :=
  fun n request => Except.ok (results n request)

/-- The source expression `sendTelegramMessage(text, env)` as the `n`-th gateway call. -/
def sendTelegramMessage (gw : Gateway) (n : Nat) (text : Option String) :
    Except String GatewayResult :=
  gw n (SendRequest.message text)

/-- The source expression `sendTelegramPhoto(caption, photoUrl, env)` as the `n`-th gateway call. -/
def sendTelegramPhoto (gw : Gateway) (n : Nat) (caption photoUrl : String) :
    Except String GatewayResult :=
  gw n (SendRequest.photo caption photoUrl)

/-- A gateway call made while handling the value loaded from `key`. -/
structure SendEvent where
  key : String
  request : SendRequest
deriving DecidableEq, Repr

/-! ## Responses -/

/-- The body of a response. -/
inductive Body where
  | text (content : String)
  | html
  | templates (list : List Value)
  | success
  | error (message : String)
  | result (r : GatewayResult)
deriving DecidableEq, Repr

/-- A `Response`: status, body and headers. -/
structure Response where
  status : Nat
  body : Body
  headers : List (String × String)
deriving DecidableEq, Repr

/-- What one invocation leaves behind: its response, the namespace afterwards and the
gateway calls it made, in order. -/
structure Outcome where
  response : Response
  store : Store
  sent : List SendEvent

/-! ## Scheduled run (lines 18-50) -/

/-- The `for` loop of `handleSchedule` over the remaining ids.  The first component of the
result is the message of the exception that ended the loop, if any. -/
def scheduleLoop (gw : Gateway) (currentTime : Int) :
    List String → Store → List SendEvent → Option String × Store × List SendEvent
  | [], store, sent => (none, store, sent)
  | templateId :: rest, store, sent =>
    match store.get templateId with
    | none => scheduleLoop gw currentTime rest store sent
    | some (Value.ids list) =>
      -- an array has no `lastSentTime`, `includeImage` or `message` property
      match sendTelegramMessage gw sent.length none with
      | Except.error e => (some e, store, sent ++ [⟨templateId, SendRequest.message none⟩])
      | Except.ok _ =>
        scheduleLoop gw currentTime rest (store.putIndex list)
          (sent ++ [⟨templateId, SendRequest.message none⟩])
    | some (Value.template template) =>
      if shouldSendNow template currentTime then
        if template.includeImage && decide (template.imageUrl ≠ "") then
          match sendTelegramPhoto gw sent.length template.message template.imageUrl with
          | Except.error e =>
            (some e, store,
              sent ++ [⟨templateId, SendRequest.photo template.message template.imageUrl⟩])
          | Except.ok _ =>
            scheduleLoop gw currentTime rest
              (store.putTemplate templateId { template with lastSentTime := some currentTime })
              (sent ++ [⟨templateId, SendRequest.photo template.message template.imageUrl⟩])
        else
          match sendTelegramMessage gw sent.length (some template.message) with
          | Except.error e =>
            (some e, store, sent ++ [⟨templateId, SendRequest.message (some template.message)⟩])
          | Except.ok _ =>
            scheduleLoop gw currentTime rest
              (store.putTemplate templateId { template with lastSentTime := some currentTime })
              (sent ++ [⟨templateId, SendRequest.message (some template.message)⟩])
      else
        scheduleLoop gw currentTime rest store sent

/-- The function `handleSchedule(currentTime, env)`, with `currentTime` given as its
`getTime()`. -/
def handleSchedule (gw : Gateway) (currentTime : Int) (store : Store) : Outcome :=
  match scheduleLoop gw currentTime store.getIndex store [] with
  | (none, store1, sent) =>
    { response := ⟨200, Body.text "Scheduled task completed", []⟩, store := store1,
      sent := sent }
  | (some e, store1, sent) =>
    { response := ⟨500, Body.text ("Error in scheduled function: " ++ e), []⟩,
      store := store1, sent := sent }

/-! ## HTTP surface (lines 118-246) -/

/-- A request, reduced to what `handleRequest` reads: the method, the path of the URL and
the form fields in submission order (`Except.error` when `request.formData()` throws). -/
structure Request where
  method : String
  pathname : String
  formData : Except String (List (String × String))

/-- The JavaScript `x || fallback` for a string-or-null `x`. -/
def orDefault (x : Option String) (fallback : String) : String :=
  match x with
  | none => fallback
  | some v => if v = "" then fallback else v

/-- White space and line terminators skipped by `parseInt`. -/
def isStrWhiteSpaceChar (c : Char) : Bool :=
  let n := c.toNat
  n = 9 || n = 10 || n = 11 || n = 12 || n = 13 || n = 32 || n = 160 || n = 0x1680
    || (0x2000 ≤ n && n ≤ 0x200A) || n = 0x2028 || n = 0x2029 || n = 0x202F || n = 0x205F
    || n = 0x3000 || n = 0xFEFF

/-- The value of a run of decimal digits, most significant first. -/
def digitsValue (digits : List Char) : Nat :=
  digits.foldl (fun acc c => acc * 10 + (c.toNat - 48)) 0

/-- The source expression `parseInt(string, 10)`; `none` is `NaN`. -/
def parseInt (string : String) : Option Int :=
  let trimmed := string.data.dropWhile isStrWhiteSpaceChar
  let sign : Int := if trimmed.head? = some '-' then -1 else 1
  let unsigned :=
    if trimmed.head? = some '-' ∨ trimmed.head? = some '+' then trimmed.tail else trimmed
  let z := unsigned.takeWhile Char.isDigit
  if z = [] then none else some (sign * (digitsValue z : Int))

/-- The last piece of the path when it is cut at every `/`. -/
def lastSegmentChars : List Char → List Char → List Char
  | [], segment => segment
  | c :: cs, segment =>
    if c = '/' then lastSegmentChars cs [] else lastSegmentChars cs (segment ++ [c])

/-- The source expression `url.pathname.split("/").pop()`. -/
def lastSegment (pathname : String) : String :=
  String.mk (lastSegmentChars pathname.data [])

/-- The source expression `pathname.startsWith(start)`. -/
def startsWith (pathname start : String) : Bool :=
  start.data.isPrefixOf pathname.data

/-- The `for` loop of the list handler: `templates.push(template)` for every id that
resolves. -/
def listLoop (store : Store) : List String → List Value → List Value
  | [], templates => templates
  | id :: rest, templates =>
    match store.get id with
    | some template => listLoop store rest (templates ++ [template])
    | none => listLoop store rest templates

/-- The JSON content type header. -/
def jsonHeaders : List (String × String) :=
  [("Content-Type", "application/json")]

/-- The function `handleRequest(request, env)`; `dateNow k` is the `k`-th reading of
`Date.now()` made by the invocation. -/
def handleRequest (gw : Gateway) (dateNow : Nat → Int) (request : Request) (store : Store) :
    Outcome :=
  if request.pathname = "/" ∧ request.method = "GET" then
    { response := ⟨200, Body.html, [("Content-Type", "text/html")]⟩, store := store,
      sent := [] }
  else if request.pathname = "/api/templates" ∧ request.method = "GET" then
    let templatesList := store.getIndex
    let templates := listLoop store templatesList []
    { response := ⟨200, Body.templates templates, jsonHeaders⟩, store := store, sent := [] }
  else if request.pathname = "/api/templates" ∧ request.method = "POST" then
    match request.formData with
    | Except.error e =>
      { response := ⟨500, Body.text ("Error creating template: " ++ e), []⟩,
        store := store, sent := [] }
    | Except.ok formData =>
      let template : Template :=
        { id := "template_" ++ toString (dateNow 0)
          name := orDefault (formData.lookup "name") "Unnamed Template"
          message := orDefault (formData.lookup "message") "No message content"
          intervalValue := parseInt (orDefault (formData.lookup "intervalValue") "24")
          intervalUnit := some (orDefault (formData.lookup "intervalUnit") "hours")
          includeImage := decide (formData.lookup "includeImage" = some "true")
          imageUrl := orDefault (formData.lookup "imageUrl") ""
          createdAt := dateNow 1
          lastSentTime := none }
      let templatesList := store.getIndex ++ [template.id]
      let store1 := store.putTemplate template.id template
      let store2 := store1.putIndex templatesList
      { response := ⟨302, Body.text "Template created", [("Location", "/")]⟩,
        store := store2, sent := [] }
  else if startsWith request.pathname "/api/templates/" ∧ request.method = "DELETE" then
    let id := lastSegment request.pathname
    let templatesList := store.getIndex.filter (fun templateId => decide (templateId ≠ id))
    let store1 := store.delete id
    let store2 := store1.putIndex templatesList
    { response := ⟨200, Body.success, jsonHeaders⟩, store := store2, sent := [] }
  else if startsWith request.pathname "/api/send/" ∧ request.method = "POST" then
    let id := lastSegment request.pathname
    match store.get id with
    | none =>
      { response := ⟨404, Body.error "Template not found", jsonHeaders⟩,
        store := store, sent := [] }
    | some (Value.ids list) =>
      -- an array has no `includeImage` or `message` property
      match sendTelegramMessage gw 0 none with
      | Except.error e =>
        { response := ⟨500, Body.error e, jsonHeaders⟩, store := store,
          sent := [⟨id, SendRequest.message none⟩] }
      | Except.ok result =>
        { response := ⟨200, Body.result result, jsonHeaders⟩, store := store.putIndex list,
          sent := [⟨id, SendRequest.message none⟩] }
    | some (Value.template template) =>
      if template.includeImage && decide (template.imageUrl ≠ "") then
        match sendTelegramPhoto gw 0 template.message template.imageUrl with
        | Except.error e =>
          { response := ⟨500, Body.error e, jsonHeaders⟩, store := store,
            sent := [⟨id, SendRequest.photo template.message template.imageUrl⟩] }
        | Except.ok result =>
          { response := ⟨200, Body.result result, jsonHeaders⟩,
            store := store.putTemplate id { template with lastSentTime := some (dateNow 0) },
            sent := [⟨id, SendRequest.photo template.message template.imageUrl⟩] }
      else
        match sendTelegramMessage gw 0 (some template.message) with
        | Except.error e =>
          { response := ⟨500, Body.error e, jsonHeaders⟩, store := store,
            sent := [⟨id, SendRequest.message (some template.message)⟩] }
        | Except.ok result =>
          { response := ⟨200, Body.result result, jsonHeaders⟩,
            store := store.putTemplate id { template with lastSentTime := some (dateNow 0) },
            sent := [⟨id, SendRequest.message (some template.message)⟩] }
  else
    { response := ⟨404, Body.text "Not found", []⟩, store := store, sent := [] }

/-! ## Reference notions and sample data -/

/-- The gateway call that the specification prescribes for a template: photo with caption
(caption = message, photo = imageUrl) when `includeImage` is true and `imageUrl` is not
empty, plain text with the message otherwise. -/
def specRouting (t : Template) : SendRequest :=
  if t.includeImage = true ∧ t.imageUrl ≠ "" then SendRequest.photo t.message t.imageUrl
  else SendRequest.message (some t.message)

/-- The number of gateway calls in a trace that were made for the value under `key`. -/
def sendsFor (key : String) (sent : List SendEvent) : Nat :=
  sent.countP (fun e => decide (e.key = key))

/-- A template that repeats every two hours, last sent at `lastSent`. -/
def sampleTemplate (lastSent : Option Int) : Template :=
  { id := "template_1", name := "A", message := "hi", intervalValue := some 2,
    intervalUnit := some "hours", includeImage := false, imageUrl := "", createdAt := 1,
    lastSentTime := lastSent }

/-- A namespace holding one indexed template, `sampleTemplate lastSent`, under its id. -/
def sampleStore (lastSent : Option Int) : Store :=
  { index := some ["template_1"],
    records := fun k => if k = "template_1" then some (sampleTemplate lastSent) else none }

/-- Gateway answers that report a failure for every call. -/
def failingResults : Nat → SendRequest → GatewayResult :=
  fun _ _ => { ok := false, description := some "Bad Request" }

/-- A gateway that reports a failure for every call. -/
def failingGateway : Gateway :=
  Gateway.returning failingResults

/-- A clock that reads the same instant every time. -/
def frozenClock (now : Int) : Nat → Int :=
  fun _ => now

/-- The id that the create handler builds from the clock reading `reading`. -/
def templateId (reading : Int) : String :=
  "template_" ++ toString reading

/-- One invocation of `handleRequest`: the request together with the gateway and the clock
it runs against. -/
structure Invocation where
  gateway : Gateway
  dateNow : Nat → Int
  request : Request

/-- The namespace after a sequence of requests, handled one after the other. -/
def runRequests (steps : List Invocation) (store : Store) : Store :=
  steps.foldl (fun s st => (handleRequest st.gateway st.dateNow st.request s).store) store

/-- A request routed to the create handler. -/
def isCreateRequest (r : Request) : Bool :=
  decide (r.pathname = "/api/templates" ∧ r.method = "POST")

/-- A request routed to the delete handler. -/
def isDeleteRequest (r : Request) : Bool :=
  startsWith r.pathname "/api/templates/" && decide (r.method = "DELETE")

/-- The clock reading that a create request turns into an id; `none` for any other request
and for a create request whose form cannot be read. -/
def createClock (st : Invocation) : Option Int :=
  if isCreateRequest st.request then
    match st.request.formData with
    | Except.ok _ => some (st.dateNow 0)
    | Except.error _ => none
  else none

/-- The id of the template that the invocation creates, if it creates one. -/
def createdId (st : Invocation) : Option String :=
  (createClock st).map templateId

/-- The id that the invocation deletes, if it is a delete request. -/
def deletedId (st : Invocation) : Option String :=
  if isDeleteRequest st.request then some (lastSegment st.request.pathname) else none

/-- The template `id` was created by some request of the sequence and no later request of
the sequence deletes it. -/
def LiveAfter (steps : List Invocation) (id : String) : Prop :=
  ∃ pre st post, steps = pre ++ st :: post ∧ createdId st = some id ∧
    ∀ d ∈ post, deletedId d ≠ some id

/-- The registry invariant after the requests `steps` have produced the namespace `s`: the
index has no repeated id, it lists exactly the live templates, each of them has a stored
record, and every stored record was written by some create of the sequence. -/
def RegistryInv (steps : List Invocation) (s : Store) : Prop :=
  s.getIndex.Nodup ∧
  (∀ id ∈ s.getIndex, LiveAfter steps id ∧ ∃ t, s.records id = some t) ∧
  (∀ id, LiveAfter steps id → id ∈ s.getIndex) ∧
  (∀ k t, s.records k = some t → ∃ c ∈ steps.filterMap createClock, k = templateId c)

/-- A create request for a template called `name`, handled at clock reading `reading`. -/
def createAt (name : String) (reading : Int) : Invocation :=
  { gateway := failingGateway, dateNow := frozenClock reading,
    request := ⟨"POST", "/api/templates",
      Except.ok [("name", name), ("message", "hi"), ("intervalValue", "2"),
        ("intervalUnit", "hours")]⟩ }

/-- A delete request for `id`. -/
def deleteOf (id : String) : Invocation :=
  { gateway := failingGateway, dateNow := frozenClock 0,
    request := ⟨"DELETE", "/api/templates/" ++ id, Except.ok []⟩ }

/-- The `name` of the template stored under `id`, if a template is stored there. -/
def storedName (s : Store) (id : String) : Option String :=
  match s.get id with
  | some (Value.template t) => some t.name
  | _ => none

/-- C2: a template with no `lastSentTime` is due at every time, whatever its interval value
and unit are. -/
theorem shouldSendNow_first_run (t : Template) (now : Int) (h : t.lastSentTime = none) :
    shouldSendNow t now = true := by
  unfold shouldSendNow
  simp [h, isFalsyNumber]

theorem shouldSendNow_first_run_witness :
    (sampleTemplate none).lastSentTime = none ∧ shouldSendNow (sampleTemplate none) 0 = true :=
  ⟨rfl, shouldSendNow_first_run (sampleTemplate none) 0 rfl⟩

theorem Store.get_template_key {s : Store} {k : String} {t : Template}
    (h : s.get k = some (Value.template t)) : k ≠ "all_templates" := by
  intro hk
  subst hk
  unfold Store.get at h
  cases hi : s.index <;> simp [hi] at h

theorem Store.get_ids_key {s : Store} {k : String} {l : List String}
    (h : s.get k = some (Value.ids l)) : k = "all_templates" ∧ s.index = some l := by
  unfold Store.get at h
  by_cases hk : k = "all_templates"
  · refine ⟨hk, ?_⟩
    cases hi : s.index <;> simp [hk, hi] at h
    rw [h]
  · cases hr : s.records k <;> simp [hk, hr] at h

theorem Store.putIndex_same {s : Store} {l : List String} (h : s.index = some l) :
    s.putIndex l = s := by
  cases s
  simp only [Store.putIndex] at *
  simp [h]

theorem Store.get_putTemplate_self (s : Store) {k : String} (t : Template)
    (hk : k ≠ "all_templates") : (s.putTemplate k t).get k = some (Value.template t) := by
  simp [Store.get, Store.putTemplate, hk]

theorem Store.get_putTemplate_other (s : Store) {k j : String} (t : Template) (hj : j ≠ k) :
    (s.putTemplate k t).get j = s.get j := by
  simp [Store.get, Store.putTemplate, hj]

theorem Store.getIndex_putTemplate (s : Store) (k : String) (t : Template) :
    (s.putTemplate k t).getIndex = s.getIndex := rfl

theorem Store.getIndex_putIndex (s : Store) (l : List String) : (s.putIndex l).getIndex = l :=
  rfl

/-! ## Listing -/

theorem listLoop_eq_filterMap (store : Store) (ids : List String) (acc : List Value) :
    listLoop store ids acc = acc ++ ids.filterMap store.get := by
  induction ids generalizing acc with
  | nil => simp [listLoop]
  | cons id rest ih =>
    unfold listLoop
    cases h : store.get id with
    | none => simp [ih, List.filterMap_cons, h]
    | some v => simp [ih, List.filterMap_cons, h]

/-- C10: for every state of the namespace the list request answers 200 with the JSON array
of the values that the index ids resolve to, in index order; an id with nothing stored
under it contributes nothing and raises no error; the namespace is left as it was. -/
theorem list_skips_dangling_ids (gw : Gateway) (dateNow : Nat → Int)
    (form : Except String (List (String × String))) (store : Store) :
    (handleRequest gw dateNow ⟨"GET", "/api/templates", form⟩ store).response =
        ⟨200, Body.templates (store.getIndex.filterMap store.get), jsonHeaders⟩ ∧
      (handleRequest gw dateNow ⟨"GET", "/api/templates", form⟩ store).store = store ∧
      (handleRequest gw dateNow ⟨"GET", "/api/templates", form⟩ store).sent = [] := by
  have h1 : ¬ ("/api/templates" = "/") := by decide
  simp [handleRequest, h1, listLoop_eq_filterMap]

/-! ## Deleting -/

/-- C9: a delete request whose id does not occur in the index answers 200 with
`{success: true}`, and the index read after the request is the same sequence of ids as
before. -/
theorem delete_unknown_id_noop (gw : Gateway) (dateNow : Nat → Int) (request : Request)
    (store : Store) (hm : request.method = "DELETE")
    (hp : startsWith request.pathname "/api/templates/" = true)
    (hid : lastSegment request.pathname ∉ store.getIndex) :
    (handleRequest gw dateNow request store).response = ⟨200, Body.success, jsonHeaders⟩ ∧
      (handleRequest gw dateNow request store).store.getIndex = store.getIndex ∧
      (handleRequest gw dateNow request store).sent = [] := by
  have h1 : ¬ ("DELETE" = "GET") := by decide
  have h2 : ¬ ("DELETE" = "POST") := by decide
  have hf : store.getIndex.filter (fun templateId =>
      decide (templateId ≠ lastSegment request.pathname)) = store.getIndex := by
    rw [List.filter_eq_self]
    intro a ha
    have : a ≠ lastSegment request.pathname := fun e => hid (e ▸ ha)
    simpa using this
  simp only [handleRequest, hm, h1, h2, and_false, if_false, hp, and_self, if_true]
  refine ⟨trivial, ?_, trivial⟩
  rw [Store.getIndex_putIndex]
  exact hf

theorem delete_unknown_id_noop_witness :
    (⟨"DELETE", "/api/templates/template_2", Except.ok []⟩ : Request).method = "DELETE" ∧
    startsWith (⟨"DELETE", "/api/templates/template_2", Except.ok []⟩ : Request).pathname
      "/api/templates/" = true ∧
    lastSegment (⟨"DELETE", "/api/templates/template_2", Except.ok []⟩ : Request).pathname ∉
      (sampleStore none).getIndex ∧
    ((handleRequest failingGateway (frozenClock 7)
        ⟨"DELETE", "/api/templates/template_2", Except.ok []⟩ (sampleStore none)).response =
        ⟨200, Body.success, jsonHeaders⟩ ∧
      (handleRequest failingGateway (frozenClock 7)
        ⟨"DELETE", "/api/templates/template_2", Except.ok []⟩
        (sampleStore none)).store.getIndex = (sampleStore none).getIndex ∧
      (handleRequest failingGateway (frozenClock 7)
        ⟨"DELETE", "/api/templates/template_2", Except.ok []⟩ (sampleStore none)).sent = []) :=
  ⟨rfl, by decide, by decide,
    delete_unknown_id_noop failingGateway (frozenClock 7)
      ⟨"DELETE", "/api/templates/template_2", Except.ok []⟩ (sampleStore none) rfl
      (by decide) (by decide)⟩

/-! ## Scheduled run: one visit and the whole loop -/

theorem scheduleLoop_cons (gw : Gateway) (now : Int) (k : String) (rest : List String)
    (s : Store) (sent : List SendEvent) :
    scheduleLoop gw now (k :: rest) s sent =
      match scheduleLoop gw now [k] s sent with
      | (none, s1, sent1) => scheduleLoop gw now rest s1 sent1
      | (some e, s1, sent1) => (some e, s1, sent1) := by
  simp only [scheduleLoop]
  cases hg : s.get k with
  | none => simp
  | some v =>
    cases v with
    | ids l =>
      simp only
      cases sendTelegramMessage gw sent.length none <;> simp
    | template t =>
      simp only
      by_cases hd : shouldSendNow t now = true
      · simp only [hd, if_true]
        by_cases hi : (t.includeImage && decide (t.imageUrl ≠ "")) = true
        · simp only [hi, if_true]
          cases sendTelegramPhoto gw sent.length t.message t.imageUrl <;> simp
        · simp only [hi]
          cases sendTelegramMessage gw sent.length (some t.message) <;> simp
      · simp [hd]

/-- What a single iteration of the loop does. -/
theorem scheduleLoop_single (gw : Gateway) (now : Int) (k : String) (s : Store)
    (sent : List SendEvent) :
    (scheduleLoop gw now [k] s sent = (none, s, sent) ∧
        (s.get k = none ∨
          ∃ t, s.get k = some (Value.template t) ∧ shouldSendNow t now = false)) ∨
    (∃ l e, s.get k = some (Value.ids l) ∧
        scheduleLoop gw now [k] s sent = (e, s, sent ++ [⟨k, SendRequest.message none⟩])) ∨
    (∃ t, s.get k = some (Value.template t) ∧ shouldSendNow t now = true ∧
        ((∃ r, gw sent.length (specRouting t) = Except.ok r ∧
            scheduleLoop gw now [k] s sent =
              (none, s.putTemplate k { t with lastSentTime := some now },
                sent ++ [⟨k, specRouting t⟩])) ∨
          (∃ m, gw sent.length (specRouting t) = Except.error m ∧
            scheduleLoop gw now [k] s sent = (some m, s, sent ++ [⟨k, specRouting t⟩])))) := by
  simp only [scheduleLoop]
  cases hg : s.get k with
  | none => left; simp
  | some v =>
    cases v with
    | ids l =>
      right; left
      have hs := (Store.get_ids_key hg).2
      simp only
      cases hr : sendTelegramMessage gw sent.length none with
      | error m => exact ⟨l, some m, rfl, rfl⟩
      | ok r => exact ⟨l, none, rfl, by rw [Store.putIndex_same hs]⟩
    | template t =>
      by_cases hd : shouldSendNow t now = true
      · right; right
        refine ⟨t, rfl, hd, ?_⟩
        simp only [hd, if_true]
        by_cases hi : t.includeImage = true ∧ t.imageUrl ≠ ""
        · have hi2 : (t.includeImage && decide (t.imageUrl ≠ "")) = true := by simpa using hi
          have hsp : specRouting t = SendRequest.photo t.message t.imageUrl := by
            simp [specRouting, hi]
          simp only [hi2, if_true, hsp]
          cases hr : sendTelegramPhoto gw sent.length t.message t.imageUrl with
          | error m => right; exact ⟨m, hr, rfl⟩
          | ok r => left; exact ⟨r, hr, rfl⟩
        · have hi2 : ¬ (t.includeImage && decide (t.imageUrl ≠ "")) = true := by simpa using hi
          have hsp : specRouting t = SendRequest.message (some t.message) := by
            simp [specRouting, hi]
          simp only [hi2, if_false, hsp]
          cases hr : sendTelegramMessage gw sent.length (some t.message) with
          | error m => right; exact ⟨m, hr, rfl⟩
          | ok r => left; exact ⟨r, hr, rfl⟩
      · left
        simp only [hd]
        exact ⟨rfl, Or.inr ⟨t, rfl, by simpa using hd⟩⟩

/-- Any property of the namespace and the trace that survives a gateway call for an array,
a failed dispatch and a completed dispatch survives the whole loop. -/
theorem scheduleLoop_invariant (P : Store → List SendEvent → Prop) (gw : Gateway) (now : Int)
    (hdisp : ∀ s sent k t, P s sent → s.get k = some (Value.template t) →
      shouldSendNow t now = true →
      P s (sent ++ [⟨k, specRouting t⟩]) ∧
        P (s.putTemplate k { t with lastSentTime := some now }) (sent ++ [⟨k, specRouting t⟩]))
    (hids : ∀ s sent k l, P s sent → s.get k = some (Value.ids l) →
      P s (sent ++ [⟨k, SendRequest.message none⟩])) :
    ∀ (l : List String) (s : Store) (sent : List SendEvent), P s sent →
      P (scheduleLoop gw now l s sent).2.1 (scheduleLoop gw now l s sent).2.2 := by
  intro l
  induction l with
  | nil => intro s sent h; simpa [scheduleLoop] using h
  | cons k rest ih =>
    intro s sent h
    rw [scheduleLoop_cons]
    rcases scheduleLoop_single gw now k s sent with
      ⟨e, _⟩ | ⟨l, e, hg, e1⟩ | ⟨t, hg, hd, hr⟩
    · rw [e]
      exact ih s sent h
    · rw [e1]
      have h2 := hids s sent k l h hg
      cases e with
      | none => exact ih _ _ h2
      | some m => exact h2
    · have h2 := hdisp s sent k t h hg hd
      rcases hr with ⟨r, _, e1⟩ | ⟨m, _, e1⟩
      · rw [e1]
        exact ih _ _ h2.2
      · rw [e1]
        exact h2.1

/-- With a gateway that always answers, the loop runs to its end. -/
theorem scheduleLoop_returning_completes (g : Nat → SendRequest → GatewayResult) (now : Int) :
    ∀ (l : List String) (s : Store) (sent : List SendEvent),
      (scheduleLoop (Gateway.returning g) now l s sent).1 = none := by
  intro l
  induction l with
  | nil => intro s sent; simp [scheduleLoop]
  | cons k rest ih =>
    intro s sent
    rw [scheduleLoop_cons]
    rcases scheduleLoop_single (Gateway.returning g) now k s sent with
      ⟨e, _⟩ | ⟨l, e, hg, e1⟩ | ⟨t, hg, hd, hr⟩
    · rw [e]
      exact ih s sent
    · have e2 : e = none := by
        have := congrArg Prod.fst e1
        simp only [scheduleLoop, hg, sendTelegramMessage, Gateway.returning] at this
        exact this.symm
      subst e2
      rw [e1]
      exact ih _ _
    · rcases hr with ⟨r, _, e1⟩ | ⟨m, hm, _⟩
      · rw [e1]
        exact ih _ _
      · simp [Gateway.returning] at hm

theorem handleSchedule_store (gw : Gateway) (now : Int) (s : Store) :
    (handleSchedule gw now s).store = (scheduleLoop gw now s.getIndex s []).2.1 := by
  unfold handleSchedule
  split <;> rename_i h <;> rw [h]

theorem handleSchedule_sent (gw : Gateway) (now : Int) (s : Store) :
    (handleSchedule gw now s).sent = (scheduleLoop gw now s.getIndex s []).2.2 := by
  unfold handleSchedule
  split <;> rename_i h <;> rw [h]

theorem sendsFor_append_other {id k : String} (sent : List SendEvent) (r : SendRequest)
    (h : k ≠ id) : sendsFor id (sent ++ [⟨k, r⟩]) = sendsFor id sent := by
  simp [sendsFor, List.countP_append, List.countP_cons, h]

theorem sendsFor_append_self (id : String) (sent : List SendEvent) (r : SendRequest) :
    sendsFor id (sent ++ [⟨id, r⟩]) = sendsFor id sent + 1 := by
  simp [sendsFor, List.countP_append, List.countP_cons]

/-- A record already stamped with the time of the run keeps exactly that content. -/
theorem scheduleLoop_stamped (gw : Gateway) (now : Int) (id : String) (t : Template)
    (hst : t.lastSentTime = some now) (l : List String) (s : Store) (sent : List SendEvent)
    (hg : s.get id = some (Value.template t)) :
    (scheduleLoop gw now l s sent).2.1.get id = some (Value.template t) := by
  refine scheduleLoop_invariant (fun s1 _ => s1.get id = some (Value.template t))
    gw now ?_ ?_ l s sent hg
  · intro s1 sent1 k t1 h hk hd
    refine ⟨h, ?_⟩
    by_cases hne : k = id
    · subst hne
      rw [h] at hk
      cases hk
      rw [Store.get_putTemplate_self _ _ (Store.get_template_key h)]
      rw [← hst]
    · beta_reduce
      rw [Store.get_putTemplate_other _ _ (Ne.symm hne), h]
  · intro s1 sent1 k l1 h _
    exact h

/-- With a gateway that always answers, the first visit of a due template sends it once
and stamps it; what remains is the loop over the ids after that visit. -/
theorem scheduleLoop_first_visit (g : Nat → SendRequest → GatewayResult) (now : Int)
    (id : String) (t : Template) (hdue : shouldSendNow t now = true) :
    ∀ (l : List String) (s : Store) (sent : List SendEvent), id ∈ l →
      s.get id = some (Value.template t) →
      ∃ rest s1 sent1,
        scheduleLoop (Gateway.returning g) now l s sent =
          scheduleLoop (Gateway.returning g) now rest s1 (sent1 ++ [⟨id, specRouting t⟩]) ∧
        s1.get id = some (Value.template { t with lastSentTime := some now }) ∧
        sendsFor id sent1 = sendsFor id sent := by
  intro l
  induction l with
  | nil => intro s sent hm; cases hm
  | cons k rest ih =>
    intro s sent hm hg
    have hcomp := scheduleLoop_returning_completes g now [k] s sent
    rw [scheduleLoop_cons]
    rcases scheduleLoop_single (Gateway.returning g) now k s sent with
      ⟨e, hc⟩ | ⟨l1, e, hk, e1⟩ | ⟨t1, hk, hd, hr⟩
    · have hne : k ≠ id := by
        intro e2
        subst e2
        rw [hg] at hc
        rcases hc with hc | ⟨t2, hc, hnd⟩
        · cases hc
        · cases hc
          rw [hdue] at hnd
          cases hnd
      have hm2 : id ∈ rest := by
        rcases List.mem_cons.1 hm with h | h
        · exact absurd h.symm hne
        · exact h
      rw [e]
      exact ih s sent hm2 hg
    · have hne : k ≠ id := by
        intro e2
        subst e2
        rw [hg] at hk
        cases hk
      have hm2 : id ∈ rest := by
        rcases List.mem_cons.1 hm with h | h
        · exact absurd h.symm hne
        · exact h
      rw [e1] at hcomp
      simp only at hcomp
      subst hcomp
      rw [e1]
      obtain ⟨rest2, s2, sent2, h1, h2, h3⟩ :=
        ih s (sent ++ [⟨k, SendRequest.message none⟩]) hm2 hg
      exact ⟨rest2, s2, sent2, h1, h2, by rw [h3, sendsFor_append_other _ _ hne]⟩
    · rcases hr with ⟨r, _, e1⟩ | ⟨m, hm3, _⟩
      · rw [e1]
        by_cases hne : k = id
        · subst hne
          rw [hg] at hk
          cases hk
          exact ⟨rest, _, sent, rfl,
            Store.get_putTemplate_self _ _ (Store.get_template_key hg), rfl⟩
        · have hm2 : id ∈ rest := by
            rcases List.mem_cons.1 hm with h | h
            · exact absurd h.symm hne
            · exact h
          have hg2 : (s.putTemplate k { t1 with lastSentTime := some now }).get id =
              some (Value.template t) := by
            rw [Store.get_putTemplate_other _ _ (Ne.symm hne), hg]
          obtain ⟨rest2, s2, sent2, h1, h2, h3⟩ :=
            ih _ (sent ++ [⟨k, specRouting t1⟩]) hm2 hg2
          exact ⟨rest2, s2, sent2, h1, h2, by rw [h3, sendsFor_append_other _ _ hne]⟩
      · simp [Gateway.returning] at hm3

/-- With gateways that always answer, the namespace after the loop is the same whatever
the answers are. -/
theorem scheduleLoop_store_independent (g1 g2 : Nat → SendRequest → GatewayResult) (now : Int) :
    ∀ (l : List String) (s : Store) (sent1 sent2 : List SendEvent),
      (scheduleLoop (Gateway.returning g1) now l s sent1).2.1 =
        (scheduleLoop (Gateway.returning g2) now l s sent2).2.1 := by
  intro l
  induction l with
  | nil => intro s sent1 sent2; simp [scheduleLoop]
  | cons k rest ih =>
    intro s sent1 sent2
    simp only [scheduleLoop, sendTelegramMessage, sendTelegramPhoto, Gateway.returning]
    cases hg : s.get k with
    | none => exact ih _ _ _
    | some v =>
      cases v with
      | ids l1 => exact ih _ _ _
      | template t =>
        simp only
        split
        · split
          · exact ih _ _ _
          · exact ih _ _ _
        · exact ih _ _ _

/-! ## Manual send -/

theorem startsWith_send_ne {p : String} (h : startsWith p "/api/send/" = true) :
    p ≠ "/" ∧ p ≠ "/api/templates" := by
  constructor
  · intro e
    subst e
    revert h
    decide
  · intro e
    subst e
    revert h
    decide

/-- The manual-send handler on an id that resolves to a template. -/
theorem handleRequest_send_template (gw : Gateway) (dateNow : Nat → Int) (request : Request)
    (s : Store) (t : Template) (hm : request.method = "POST")
    (hp : startsWith request.pathname "/api/send/" = true)
    (hg : s.get (lastSegment request.pathname) = some (Value.template t)) :
    handleRequest gw dateNow request s =
      match gw 0 (specRouting t) with
      | Except.error e =>
        { response := ⟨500, Body.error e, jsonHeaders⟩, store := s,
          sent := [⟨lastSegment request.pathname, specRouting t⟩] }
      | Except.ok r =>
        { response := ⟨200, Body.result r, jsonHeaders⟩,
          store := s.putTemplate (lastSegment request.pathname)
            { t with lastSentTime := some (dateNow 0) },
          sent := [⟨lastSegment request.pathname, specRouting t⟩] } := by
  have h1 : ¬ ("POST" = "GET") := by decide
  have h2 : ¬ ("POST" = "DELETE") := by decide
  obtain ⟨h3, h4⟩ := startsWith_send_ne hp
  simp only [handleRequest, hm, h1, h2, h3, h4, and_false, false_and, if_false, hp, and_self,
    if_true, hg]
  by_cases hi : t.includeImage = true ∧ t.imageUrl ≠ ""
  · have hi2 : (t.includeImage && decide (t.imageUrl ≠ "")) = true := by simpa using hi
    have hsp : specRouting t = SendRequest.photo t.message t.imageUrl := by
      simp [specRouting, hi]
    simp only [hi2, if_true, hsp, sendTelegramPhoto]
  · have hi2 : ¬ (t.includeImage && decide (t.imageUrl ≠ "")) = true := by simpa using hi
    have hsp : specRouting t = SendRequest.message (some t.message) := by
      simp [specRouting, hi]
    simp only [hi2, Bool.false_eq_true, if_false, hsp, sendTelegramMessage]

/-! ## Timestamp update, catch-up and routing -/

/-- C4: let `id` resolve to the template `t`.  If `id` is in the index and `t` is due, then
after `handleSchedule(now)` with a gateway that answers every send (with a success or with
a failure result) the record under `id` is `t` with `lastSentTime = now` and nothing else
changed; the whole namespace after the run is the same for any two such gateways; and the
manual-send request for `id` stores `t` with `lastSentTime` = the clock reading taken after
the send and hands the gateway result back, for every gateway result. -/
theorem lastSentTime_updated_on_every_result (g g2 : Nat → SendRequest → GatewayResult)
    (now : Int) (dateNow : Nat → Int) (request : Request) (s : Store) (id : String)
    (t : Template) (hg : s.get id = some (Value.template t)) :
    (id ∈ s.getIndex → shouldSendNow t now = true →
      (handleSchedule (Gateway.returning g) now s).store.get id =
        some (Value.template { t with lastSentTime := some now })) ∧
    (handleSchedule (Gateway.returning g) now s).store =
      (handleSchedule (Gateway.returning g2) now s).store ∧
    (request.method = "POST" → startsWith request.pathname "/api/send/" = true →
      lastSegment request.pathname = id →
      (handleRequest (Gateway.returning g) dateNow request s).store =
          s.putTemplate id { t with lastSentTime := some (dateNow 0) } ∧
        (handleRequest (Gateway.returning g) dateNow request s).store.get id =
          some (Value.template { t with lastSentTime := some (dateNow 0) }) ∧
        (handleRequest (Gateway.returning g) dateNow request s).response =
          ⟨200, Body.result (g 0 (specRouting t)), jsonHeaders⟩) := by
  refine ⟨?_, ?_, ?_⟩
  · intro hidx hdue
    rw [handleSchedule_store]
    obtain ⟨rest, s1, sent1, h1, h2, _⟩ :=
      scheduleLoop_first_visit g now id t hdue s.getIndex s [] hidx hg
    rw [h1]
    exact scheduleLoop_stamped _ now id _ rfl rest s1 _ h2
  · rw [handleSchedule_store, handleSchedule_store]
    exact scheduleLoop_store_independent g g2 now _ s [] []
  · intro hm hp hid
    subst hid
    rw [handleRequest_send_template _ dateNow request s t hm hp hg]
    exact ⟨rfl, Store.get_putTemplate_self _ _ (Store.get_template_key hg), rfl⟩

theorem lastSentTime_updated_on_every_result_witness :
    (sampleStore (some 5)).get "template_1" = some (Value.template (sampleTemplate (some 5))) ∧
    "template_1" ∈ (sampleStore (some 5)).getIndex ∧
    shouldSendNow (sampleTemplate (some 5)) 7200005 = true ∧
    lastSegment "/api/send/template_1" = "template_1" ∧
    (handleSchedule failingGateway 7200005 (sampleStore (some 5))).store.get "template_1" =
      some (Value.template { sampleTemplate (some 5) with lastSentTime := some 7200005 }) ∧
    (handleRequest failingGateway (frozenClock 9) ⟨"POST", "/api/send/template_1", Except.ok []⟩
        (sampleStore (some 5))).store.get "template_1" =
      some (Value.template { sampleTemplate (some 5) with lastSentTime := some 9 }) :=
  ⟨by decide, by decide, by decide, by decide,
    (lastSentTime_updated_on_every_result failingResults failingResults 7200005 (frozenClock 9)
      ⟨"POST", "/api/send/template_1", Except.ok []⟩ (sampleStore (some 5)) "template_1"
      (sampleTemplate (some 5)) (by decide)).1 (by decide) (by decide),
    ((lastSentTime_updated_on_every_result failingResults failingResults 7200005 (frozenClock 9)
      ⟨"POST", "/api/send/template_1", Except.ok []⟩ (sampleStore (some 5)) "template_1"
      (sampleTemplate (some 5)) (by decide)).2.2 rfl (by decide) (by decide)).2.1⟩

theorem sendsFor_append_single (k j : String) (sent : List SendEvent) (r : SendRequest) :
    sendsFor k (sent ++ [⟨j, r⟩]) = sendsFor k sent + if j = k then 1 else 0 := by
  by_cases h : j = k
  · subst h
    simp [sendsFor_append_self]
  · simp [sendsFor_append_other _ _ h, h]

/-- One iteration makes at most one gateway call: the calls made for a key are at most as
many as the occurrences of the key among the ids visited. -/
theorem scheduleLoop_sends_le (gw : Gateway) (now : Int) (k : String) :
    ∀ (l : List String) (s : Store) (sent : List SendEvent),
      sendsFor k (scheduleLoop gw now l s sent).2.2 ≤ sendsFor k sent + l.count k := by
  intro l
  induction l with
  | nil => intro s sent; simp [scheduleLoop]
  | cons j rest ih =>
    intro s sent
    have hcount : (j :: rest).count k = rest.count k + if j = k then 1 else 0 := by
      rw [List.count_cons]
      simp
    rw [scheduleLoop_cons, hcount]
    rcases scheduleLoop_single gw now j s sent with
      ⟨e, _⟩ | ⟨l1, e, _, e1⟩ | ⟨t, _, _, hr⟩
    · rw [e]
      have := ih s sent
      simp only at this ⊢
      omega
    · rw [e1]
      cases e with
      | none =>
        have := ih s (sent ++ [⟨j, SendRequest.message none⟩])
        rw [sendsFor_append_single] at this
        simp only at this ⊢
        omega
      | some m =>
        simp only
        rw [sendsFor_append_single]
        omega
    · rcases hr with ⟨r, _, e1⟩ | ⟨m, _, e1⟩
      · rw [e1]
        have := ih (s.putTemplate j { t with lastSentTime := some now })
          (sent ++ [⟨j, specRouting t⟩])
        rw [sendsFor_append_single] at this
        simp only at this ⊢
        omega
      · rw [e1]
        simp only
        rw [sendsFor_append_single]
        omega

/-- Every gateway call that the loop makes for a key holding a template is the call the
specification prescribes for that template. -/
theorem scheduleLoop_routing (gw : Gateway) (now : Int) (id : String) (t : Template)
    (l : List String) (s : Store) (hg : s.get id = some (Value.template t)) :
    ∀ e ∈ (scheduleLoop gw now l s []).2.2, e.key = id → e.request = specRouting t := by
  have key := scheduleLoop_invariant
    (fun s1 sent1 =>
      (∃ t1, s1.get id = some (Value.template t1) ∧ specRouting t1 = specRouting t) ∧
        ∀ e ∈ sent1, e.key = id → e.request = specRouting t)
    gw now ?_ ?_ l s [] ⟨⟨t, hg, rfl⟩, by simp⟩
  · exact key.2
  · intro s1 sent1 k t1 h hk hd
    obtain ⟨⟨t2, hg2, hr2⟩, hall⟩ := h
    by_cases hne : k = id
    · subst hne
      rw [hg2] at hk
      cases hk
      have hall2 : ∀ e ∈ sent1 ++ [(⟨k, specRouting t1⟩ : SendEvent)], e.key = k →
          e.request = specRouting t := by
        intro e he hek
        rcases List.mem_append.1 he with h1 | h1
        · exact hall e h1 hek
        · simp only [List.mem_singleton] at h1
          subst h1
          exact hr2
      refine ⟨⟨⟨t1, hg2, hr2⟩, hall2⟩, ⟨_, Store.get_putTemplate_self _ _
        (Store.get_template_key hg2), ?_⟩, hall2⟩
      rw [← hr2]
      rfl
    · have hall2 : ∀ e ∈ sent1 ++ [(⟨k, specRouting t1⟩ : SendEvent)], e.key = id →
          e.request = specRouting t := by
        intro e he hek
        rcases List.mem_append.1 he with h1 | h1
        · exact hall e h1 hek
        · simp only [List.mem_singleton] at h1
          subst h1
          exact absurd hek hne
      refine ⟨⟨⟨t2, hg2, hr2⟩, hall2⟩, ⟨t2, ?_, hr2⟩, hall2⟩
      rw [Store.get_putTemplate_other _ _ (Ne.symm hne), hg2]
  · intro s1 sent1 k l1 h hk
    obtain ⟨⟨t2, hg2, hr2⟩, hall⟩ := h
    have hne : k ≠ id := by
      intro e
      subst e
      rw [hg2] at hk
      cases hk
    refine ⟨⟨t2, hg2, hr2⟩, ?_⟩
    intro e he hek
    rcases List.mem_append.1 he with h1 | h1
    · exact hall e h1 hek
    · simp only [List.mem_singleton] at h1
      subst h1
      exact absurd hek hne

/-- C6: let `id` resolve to the template `t`.  Every gateway call that a scheduled run makes
for `id` is the photo send with caption = message and photo = imageUrl when `includeImage`
is true and `imageUrl` is not empty, and the plain-text send of the message otherwise; the
run makes at most one call per visit of an index entry, a run over the index `[id]` with
`t` due makes exactly one call, and so does the manual-send request for `id`, with the same
choice between the two sends. -/
theorem photo_or_text_routing (gw : Gateway) (now : Int) (dateNow : Nat → Int)
    (request : Request) (s : Store) (id : String) (t : Template)
    (hg : s.get id = some (Value.template t)) :
    (specRouting t = SendRequest.photo t.message t.imageUrl ↔
      (t.includeImage = true ∧ t.imageUrl ≠ "")) ∧
    (specRouting t = SendRequest.message (some t.message) ↔
      ¬ (t.includeImage = true ∧ t.imageUrl ≠ "")) ∧
    (∀ e ∈ (handleSchedule gw now s).sent, e.key = id → e.request = specRouting t) ∧
    (∀ k, sendsFor k (handleSchedule gw now s).sent ≤ s.getIndex.count k) ∧
    (s.getIndex = [id] → shouldSendNow t now = true →
      (handleSchedule gw now s).sent = [⟨id, specRouting t⟩]) ∧
    (request.method = "POST" → startsWith request.pathname "/api/send/" = true →
      lastSegment request.pathname = id →
      (handleRequest gw dateNow request s).sent = [⟨id, specRouting t⟩]) := by
  refine ⟨?_, ?_, ?_, ?_, ?_, ?_⟩
  · unfold specRouting
    by_cases hi : t.includeImage = true ∧ t.imageUrl ≠ "" <;> simp [hi]
  · unfold specRouting
    by_cases hi : t.includeImage = true ∧ t.imageUrl ≠ "" <;> simp [hi]
  · rw [handleSchedule_sent]
    exact scheduleLoop_routing gw now id t s.getIndex s hg
  · intro k
    rw [handleSchedule_sent]
    have := scheduleLoop_sends_le gw now k s.getIndex s []
    simpa [sendsFor] using this
  · intro hidx hdue
    rw [handleSchedule_sent, hidx]
    rcases scheduleLoop_single gw now id s [] with
      ⟨_, hc⟩ | ⟨l1, e, hk, _⟩ | ⟨t1, hk, _, hr⟩
    · rw [hg] at hc
      rcases hc with hc | ⟨t2, hc, hnd⟩
      · cases hc
      · cases hc
        rw [hdue] at hnd
        cases hnd
    · rw [hg] at hk
      cases hk
    · rw [hg] at hk
      cases hk
      rcases hr with ⟨r, _, e1⟩ | ⟨m, _, e1⟩ <;> rw [e1] <;> rfl
  · intro hm hp hid
    subst hid
    rw [handleRequest_send_template gw dateNow request s t hm hp hg]
    cases gw 0 (specRouting t) <;> rfl

theorem photo_or_text_routing_witness :
    (sampleStore none).get "template_1" = some (Value.template (sampleTemplate none)) ∧
    (sampleStore none).getIndex = ["template_1"] ∧
    shouldSendNow (sampleTemplate none) 7 = true ∧
    (handleSchedule failingGateway 7 (sampleStore none)).sent =
      [⟨"template_1", specRouting (sampleTemplate none)⟩] ∧
    (handleRequest failingGateway (frozenClock 9) ⟨"POST", "/api/send/template_1", Except.ok []⟩
        (sampleStore none)).sent = [⟨"template_1", specRouting (sampleTemplate none)⟩] :=
  ⟨by decide, by decide, by decide,
    (photo_or_text_routing failingGateway 7 (frozenClock 9)
      ⟨"POST", "/api/send/template_1", Except.ok []⟩ (sampleStore none) "template_1"
      (sampleTemplate none) (by decide)).2.2.2.2.1 (by decide) (by decide),
    (photo_or_text_routing failingGateway 7 (frozenClock 9)
      ⟨"POST", "/api/send/template_1", Except.ok []⟩ (sampleStore none) "template_1"
      (sampleTemplate none) (by decide)).2.2.2.2.2 rfl (by decide) (by decide)⟩

/-! ## Printing and parsing integers -/

theorem digitChar_facts (d : Nat) (h : d < 10) :
    (Nat.digitChar d).isDigit = true ∧ (Nat.digitChar d).toNat - 48 = d ∧
      isStrWhiteSpaceChar (Nat.digitChar d) = false ∧ Nat.digitChar d ≠ '-' ∧
      Nat.digitChar d ≠ '+' := by
  interval_cases d <;> decide

theorem digitsValue_append (l : List Char) (c : Char) :
    digitsValue (l ++ [c]) = digitsValue l * 10 + (c.toNat - 48) := by
  simp [digitsValue, List.foldl_append]

/-- The digits printed for `n`: a non-empty run of decimal digits whose value is `n`. -/
theorem toDigitsCore_spec (fuel : Nat) :
    ∀ (n : Nat) (ds : List Char), n < fuel →
      ∃ l : List Char, Nat.toDigitsCore 10 fuel n ds = l ++ ds ∧ l ≠ [] ∧
        (∀ c ∈ l, c.isDigit = true) ∧ digitsValue l = n ∧
        (∀ c, l.head? = some c →
          isStrWhiteSpaceChar c = false ∧ c ≠ '-' ∧ c ≠ '+') := by
  induction fuel with
  | zero => intro n ds h; omega
  | succ fuel ih =>
    intro n ds h
    have hd := digitChar_facts (n % 10) (Nat.mod_lt _ (by decide))
    unfold Nat.toDigitsCore
    by_cases h0 : n / 10 = 0
    · refine ⟨[Nat.digitChar (n % 10)], by simp [h0], by simp, ?_, ?_, ?_⟩
      · intro c hc
        simp only [List.mem_singleton] at hc
        subst hc
        exact hd.1
      · simp only [digitsValue, List.foldl_cons, List.foldl_nil, hd.2.1]
        omega
      · intro c hc
        simp only [List.head?_cons, Option.some.injEq] at hc
        subst hc
        exact hd.2.2
    · have hlt : n / 10 < fuel := by omega
      obtain ⟨l, h1, h2, h3, h4, h5⟩ := ih (n / 10) (Nat.digitChar (n % 10) :: ds) hlt
      refine ⟨l ++ [Nat.digitChar (n % 10)], by simp [h0, h1], by simp, ?_, ?_, ?_⟩
      · intro c hc
        rcases List.mem_append.1 hc with hc | hc
        · exact h3 c hc
        · simp only [List.mem_singleton] at hc
          subst hc
          exact hd.1
      · rw [digitsValue_append, h4, hd.2.1]
        omega
      · intro c hc
        cases l with
        | nil => exact absurd rfl h2
        | cons a l1 =>
          simp only [List.cons_append, List.head?_cons, Option.some.injEq] at hc
          exact h5 c (by simp [hc])

theorem natRepr_spec (n : Nat) :
    ∃ l : List Char, (Nat.repr n).data = l ∧ l ≠ [] ∧ (∀ c ∈ l, c.isDigit = true) ∧
      digitsValue l = n ∧
      (∀ c, l.head? = some c → isStrWhiteSpaceChar c = false ∧ c ≠ '-' ∧ c ≠ '+') := by
  obtain ⟨l, h1, h2, h3, h4, h5⟩ := toDigitsCore_spec (n + 1) n [] (Nat.lt_succ_self n)
  refine ⟨l, ?_, h2, h3, h4, h5⟩
  simp [Nat.repr, Nat.toDigits, h1, List.asString]

theorem takeWhile_all {p : Char → Bool} (l : List Char) (h : ∀ c ∈ l, p c = true) :
    l.takeWhile p = l := by
  induction l with
  | nil => rfl
  | cons a l ih =>
    have ha := h a (List.mem_cons_self a l)
    simp only [List.takeWhile_cons, ha, if_true]
    rw [ih (fun c hc => h c (List.mem_cons_of_mem a hc))]

theorem parseInt_natRepr (n : Nat) : parseInt (Nat.repr n) = some (n : Int) := by
  obtain ⟨l, h1, h2, h3, h4, h5⟩ := natRepr_spec n
  cases l with
  | nil => exact absurd rfl h2
  | cons a l1 =>
    obtain ⟨hw, hm, hp⟩ := h5 a rfl
    unfold parseInt
    simp only [h1, List.dropWhile_cons, hw, Bool.false_eq_true, if_false, List.head?_cons,
      Option.some.injEq, hm, hp, or_self]
    rw [takeWhile_all _ h3, h4]
    simp

theorem parseInt_neg_natRepr (n : Nat) :
    parseInt ("-" ++ Nat.repr n) = some (-(n : Int)) := by
  obtain ⟨l, h1, h2, h3, h4, h5⟩ := natRepr_spec n
  have hd : ("-" ++ Nat.repr n).data = '-' :: l := by
    rw [String.data_append, h1]
    rfl
  have hw : isStrWhiteSpaceChar '-' = false := by decide
  unfold parseInt
  simp only [hd, List.dropWhile_cons, hw, Bool.false_eq_true, if_false, List.head?_cons,
    true_or, if_true, List.tail_cons]
  rw [takeWhile_all _ h3, h4]
  simp [h2]

/-- Reading back a printed integer gives the integer. -/
theorem parseInt_toString (i : Int) : parseInt (toString i) = some i := by
  cases i with
  | ofNat m => exact parseInt_natRepr m
  | negSucc m =>
    show parseInt ("-" ++ Nat.repr (m + 1)) = some (Int.negSucc m)
    rw [parseInt_neg_natRepr (m + 1)]
    rfl

theorem toString_int_injective {a b : Int} (h : toString a = toString b) : a = b := by
  have := congrArg parseInt h
  rw [parseInt_toString, parseInt_toString] at this
  exact Option.some.inj this

theorem templateId_ne_index_key (reading : Int) : templateId reading ≠ "all_templates" := by
  intro h
  have h1 := congrArg String.data h
  rw [templateId, String.data_append] at h1
  have h2 : "template_".data = 't' :: "emplate_".data := by decide
  have h3 : "all_templates".data = 'a' :: "ll_templates".data := by decide
  rw [h2, h3, List.cons_append] at h1
  injection h1 with h4 _
  revert h4
  decide

theorem templateId_injective {a b : Int} (h : templateId a = templateId b) : a = b := by
  have h1 := congrArg String.data h
  rw [templateId, templateId, String.data_append, String.data_append] at h1
  have h2 := List.append_cancel_left h1
  exact toString_int_injective (String.ext h2)

/-- The create handler on a readable form. -/
theorem handleRequest_create (gw : Gateway) (dateNow : Nat → Int) (request : Request)
    (s : Store) (form : List (String × String))
    (hc : isCreateRequest request = true) (hf : request.formData = Except.ok form) :
    ∃ t : Template,
      t.id = templateId (dateNow 0) ∧
      t.name = orDefault (form.lookup "name") "Unnamed Template" ∧
      t.message = orDefault (form.lookup "message") "No message content" ∧
      t.intervalValue = parseInt (orDefault (form.lookup "intervalValue") "24") ∧
      t.intervalUnit = some (orDefault (form.lookup "intervalUnit") "hours") ∧
      t.includeImage = decide (form.lookup "includeImage" = some "true") ∧
      t.imageUrl = orDefault (form.lookup "imageUrl") "" ∧
      t.createdAt = dateNow 1 ∧ t.lastSentTime = none ∧
      handleRequest gw dateNow request s =
        { response := ⟨302, Body.text "Template created", [("Location", "/")]⟩,
          store := (s.putTemplate (templateId (dateNow 0)) t).putIndex
            (s.getIndex ++ [templateId (dateNow 0)]),
          sent := [] } := by
  simp only [isCreateRequest, decide_eq_true_eq] at hc
  obtain ⟨hp, hm⟩ := hc
  have h1 : ¬ ("/api/templates" = "/") := by decide
  have h2 : ¬ ("POST" = "GET") := by decide
  refine ⟨{ id := "template_" ++ toString (dateNow 0)
            name := orDefault (form.lookup "name") "Unnamed Template"
            message := orDefault (form.lookup "message") "No message content"
            intervalValue := parseInt (orDefault (form.lookup "intervalValue") "24")
            intervalUnit := some (orDefault (form.lookup "intervalUnit") "hours")
            includeImage := decide (form.lookup "includeImage" = some "true")
            imageUrl := orDefault (form.lookup "imageUrl") ""
            createdAt := dateNow 1
            lastSentTime := none }, rfl, rfl, rfl, rfl, rfl, rfl, rfl, rfl, rfl, ?_⟩
  simp only [handleRequest, hp, hm, h1, h2, and_false, false_and, if_false, and_self, if_true,
    hf, templateId]

theorem handleRequest_create_unreadable (gw : Gateway) (dateNow : Nat → Int)
    (request : Request) (s : Store) (e : String)
    (hc : isCreateRequest request = true) (hf : request.formData = Except.error e) :
    (handleRequest gw dateNow request s).store = s := by
  simp only [isCreateRequest, decide_eq_true_eq] at hc
  obtain ⟨hp, hm⟩ := hc
  have h1 : ¬ ("/api/templates" = "/") := by decide
  have h2 : ¬ ("POST" = "GET") := by decide
  simp only [handleRequest, hp, hm, h1, h2, and_false, false_and, if_false, and_self, if_true,
    hf]

theorem handleRequest_delete (gw : Gateway) (dateNow : Nat → Int) (request : Request)
    (s : Store) (hd : isDeleteRequest request = true) :
    handleRequest gw dateNow request s =
      { response := ⟨200, Body.success, jsonHeaders⟩,
        store := (s.delete (lastSegment request.pathname)).putIndex
          (s.getIndex.filter (fun templateId =>
            decide (templateId ≠ lastSegment request.pathname))),
        sent := [] } := by
  simp only [isDeleteRequest, Bool.and_eq_true, decide_eq_true_eq] at hd
  obtain ⟨hp, hm⟩ := hd
  have h1 : ¬ ("DELETE" = "GET") := by decide
  have h2 : ¬ ("DELETE" = "POST") := by decide
  simp only [handleRequest, hm, h1, h2, and_false, if_false, hp, and_self, if_true]

/-! ## Sequences of create and delete requests -/

theorem runRequests_snoc (pre : List Invocation) (st : Invocation) (s : Store) :
    runRequests (pre ++ [st]) s =
      (handleRequest st.gateway st.dateNow st.request (runRequests pre s)).store := by
  simp [runRequests, List.foldl_append]

theorem createdId_eq_some {st : Invocation} {id : String} (h : createdId st = some id) :
    ∃ c, createClock st = some c ∧ id = templateId c := by
  unfold createdId at h
  cases hc : createClock st with
  | none => simp [hc] at h
  | some c =>
    simp only [hc, Option.map_some', Option.some.injEq] at h
    exact ⟨c, rfl, h.symm⟩

theorem createClock_of_delete {st : Invocation} (h : isDeleteRequest st.request = true) :
    createClock st = none := by
  simp only [isDeleteRequest, Bool.and_eq_true, decide_eq_true_eq] at h
  have h2 : ¬ ("DELETE" = "POST") := by decide
  simp [createClock, isCreateRequest, h.2, h2]

theorem deletedId_of_create {st : Invocation} (h : isCreateRequest st.request = true) :
    deletedId st = none := by
  simp only [isCreateRequest, decide_eq_true_eq] at h
  have h2 : ¬ ("POST" = "DELETE") := by decide
  simp [deletedId, isDeleteRequest, h.2, h2]

theorem liveAfter_snoc (pre : List Invocation) (st : Invocation) (id : String) :
    LiveAfter (pre ++ [st]) id ↔
      (LiveAfter pre id ∧ deletedId st ≠ some id) ∨ createdId st = some id := by
  constructor
  · rintro ⟨p, c, post, he, hc, hd⟩
    rcases List.eq_nil_or_concat post with hp | ⟨post1, last, hp⟩
    · subst hp
      have := List.append_inj' he rfl
      simp only [List.cons.injEq, and_true] at this
      right
      rw [this.2]
      exact hc
    · subst hp
      have he2 : pre ++ [st] = (p ++ c :: post1) ++ [last] := by
        rw [he]
        simp
      have := List.append_inj' he2 rfl
      simp only [List.cons.injEq, and_true] at this
      left
      refine ⟨⟨p, c, post1, this.1, hc, fun d hd1 => hd d (by simp [hd1])⟩, ?_⟩
      rw [this.2]
      exact hd last (by simp)
  · rintro (⟨⟨p, c, post, he, hc, hd⟩, hnd⟩ | hc)
    · refine ⟨p, c, post ++ [st], by rw [he]; simp, hc, ?_⟩
      intro d hd1
      rcases List.mem_append.1 hd1 with h | h
      · exact hd d h
      · simp only [List.mem_singleton] at h
        subst h
        exact hnd
    · exact ⟨pre, st, [], rfl, hc, by simp⟩

theorem liveAfter_clock {steps : List Invocation} {id : String} (h : LiveAfter steps id) :
    ∃ c ∈ steps.filterMap createClock, id = templateId c := by
  obtain ⟨p, st, post, he, hc, _⟩ := h
  obtain ⟨c, h1, h2⟩ := createdId_eq_some hc
  refine ⟨c, ?_, h2⟩
  rw [List.mem_filterMap]
  exact ⟨st, by rw [he]; simp, h1⟩

theorem Store.records_delete (s : Store) (d k : String) (t : Template)
    (h : (s.delete d).records k = some t) : s.records k = some t := by
  unfold Store.delete at h
  by_cases hd : d = "all_templates"
  · simpa [hd] using h
  · simp only [hd, if_false] at h
    by_cases hk : k = d
    · simp [hk] at h
    · simpa [hk] using h

theorem Store.records_delete_other (s : Store) (d k : String) (hk : k ≠ d) :
    (s.delete d).records k = s.records k := by
  unfold Store.delete
  by_cases hd : d = "all_templates"
  · simp [hd]
  · simp [hd, hk]

/-- A fresh clock reading gives an id that is neither indexed nor stored. -/
theorem RegistryInv.fresh {steps : List Invocation} {s : Store} (hinv : RegistryInv steps s)
    {c : Int} (hc : c ∉ steps.filterMap createClock) :
    templateId c ∉ s.getIndex ∧ s.get (templateId c) = none := by
  obtain ⟨_, h2, _, h4⟩ := hinv
  constructor
  · intro hm
    obtain ⟨c1, hc1, e⟩ := liveAfter_clock (h2 _ hm).1
    rw [templateId_injective e] at hc
    exact hc hc1
  · unfold Store.get
    simp only [templateId_ne_index_key c, if_false]
    cases hr : s.records (templateId c) with
    | none => rfl
    | some t =>
      obtain ⟨c1, hc1, e⟩ := h4 _ t hr
      rw [templateId_injective e] at hc
      exact absurd hc1 hc

theorem RegistryInv.empty : RegistryInv [] Store.empty := by
  refine ⟨List.nodup_nil, ?_, ?_, ?_⟩
  · intro id h
    cases h
  · rintro id ⟨p, st, post, he, _⟩
    cases p <;> cases he
  · intro k t h
    cases h

/-- The invariant is kept by every create and delete request whose clock reading, if it
uses one, is new. -/
theorem RegistryInv.step {pre : List Invocation} {s : Store} (hinv : RegistryInv pre s)
    (st : Invocation)
    (hreq : isCreateRequest st.request = true ∨ isDeleteRequest st.request = true)
    (hclock : ∀ c, createClock st = some c → c ∉ pre.filterMap createClock) :
    RegistryInv (pre ++ [st]) (handleRequest st.gateway st.dateNow st.request s).store := by
  have hinv0 := hinv
  obtain ⟨h1, h2, h3, h4⟩ := hinv
  rcases hreq with hc | hd
  · have hdel := deletedId_of_create hc
    cases hf : st.request.formData with
    | error e =>
      have hcl : createClock st = none := by simp [createClock, hc, hf]
      have hcr : createdId st = none := by simp [createdId, hcl]
      rw [handleRequest_create_unreadable _ _ _ _ e hc hf]
      refine ⟨h1, ?_, ?_, ?_⟩
      · intro id hm
        refine ⟨(liveAfter_snoc pre st id).2 (Or.inl ⟨(h2 id hm).1, ?_⟩), (h2 id hm).2⟩
        rw [hdel]
        exact fun h => Option.noConfusion h
      · intro id hl
        rcases (liveAfter_snoc pre st id).1 hl with ⟨hl1, _⟩ | hl1
        · exact h3 id hl1
        · rw [hcr] at hl1
          cases hl1
      · intro k t hr
        obtain ⟨c, hc1, e1⟩ := h4 k t hr
        exact ⟨c, by simp only [List.filterMap_append, List.mem_append]; exact Or.inl hc1, e1⟩
    | ok form =>
      have hcl : createClock st = some (st.dateNow 0) := by simp [createClock, hc, hf]
      have hcr : createdId st = some (templateId (st.dateNow 0)) := by simp [createdId, hcl]
      have hfresh := (RegistryInv.fresh hinv0 (hclock _ hcl)).1
      obtain ⟨t, _, _, _, _, _, _, _, _, _, hout⟩ :=
        handleRequest_create st.gateway st.dateNow st.request s form hc hf
      rw [hout]
      refine ⟨?_, ?_, ?_, ?_⟩
      · show (s.getIndex ++ [templateId (st.dateNow 0)]).Nodup
        rw [List.nodup_append]
        refine ⟨h1, List.nodup_singleton _, ?_⟩
        intro a ha hb
        simp only [List.mem_singleton] at hb
        subst hb
        exact hfresh ha
      · intro id hm
        have hm : id ∈ s.getIndex ++ [templateId (st.dateNow 0)] := hm
        show LiveAfter (pre ++ [st]) id ∧
          ∃ t1, (if id = templateId (st.dateNow 0) then some t else s.records id) = some t1
        rcases List.mem_append.1 hm with h | h
        · refine ⟨(liveAfter_snoc pre st id).2 (Or.inl ⟨(h2 id h).1, ?_⟩), ?_⟩
          · rw [hdel]
            exact fun h => Option.noConfusion h
          · by_cases e : id = templateId (st.dateNow 0)
            · exact ⟨t, by simp [e]⟩
            · obtain ⟨t1, ht1⟩ := (h2 id h).2
              exact ⟨t1, by simp [e, ht1]⟩
        · simp only [List.mem_singleton] at h
          subst h
          exact ⟨(liveAfter_snoc pre st _).2 (Or.inr hcr), ⟨t, by simp⟩⟩
      · intro id hl
        show id ∈ s.getIndex ++ [templateId (st.dateNow 0)]
        rcases (liveAfter_snoc pre st id).1 hl with ⟨hl1, _⟩ | hl1
        · exact List.mem_append_left _ (h3 id hl1)
        · rw [hcr] at hl1
          simp only [Option.some.injEq] at hl1
          simp [hl1]
      · intro k t1 hr
        have hr : (if k = templateId (st.dateNow 0) then some t else s.records k) = some t1 := hr
        by_cases e : k = templateId (st.dateNow 0)
        · refine ⟨st.dateNow 0, ?_, e⟩
          simp only [List.filterMap_append, List.mem_append]
          right
          simp [List.filterMap_cons, hcl]
        · simp only [e, if_false] at hr
          obtain ⟨c, hc1, e1⟩ := h4 k t1 hr
          exact ⟨c, by simp only [List.filterMap_append, List.mem_append]; exact Or.inl hc1, e1⟩
  · have hcl := createClock_of_delete hd
    have hcr : createdId st = none := by simp [createdId, hcl]
    have hdel : deletedId st = some (lastSegment st.request.pathname) := by
      simp [deletedId, hd]
    rw [handleRequest_delete _ _ _ _ hd]
    refine ⟨?_, ?_, ?_, ?_⟩
    · show (s.getIndex.filter _).Nodup
      exact h1.filter _
    · intro id hm
      have hm : id ∈ s.getIndex.filter
          (fun templateId => decide (templateId ≠ lastSegment st.request.pathname)) := hm
      rw [List.mem_filter] at hm
      obtain ⟨hm1, hm2⟩ := hm
      have hne : id ≠ lastSegment st.request.pathname := by simpa using hm2
      refine ⟨(liveAfter_snoc pre st id).2 (Or.inl ⟨(h2 id hm1).1, ?_⟩), ?_⟩
      · rw [hdel]
        intro e
        exact hne (Option.some.inj e).symm
      · obtain ⟨t1, ht1⟩ := (h2 id hm1).2
        refine ⟨t1, ?_⟩
        show (s.delete (lastSegment st.request.pathname)).records id = some t1
        rw [Store.records_delete_other _ _ _ hne, ht1]
    · intro id hl
      show id ∈ s.getIndex.filter
          (fun templateId => decide (templateId ≠ lastSegment st.request.pathname))
      rcases (liveAfter_snoc pre st id).1 hl with ⟨hl1, hnd⟩ | hl1
      · rw [List.mem_filter]
        refine ⟨h3 id hl1, ?_⟩
        rw [hdel] at hnd
        have : id ≠ lastSegment st.request.pathname := fun e => hnd (by rw [e])
        simpa using this
      · rw [hcr] at hl1
        cases hl1
    · intro k t1 hr
      have hr : (s.delete (lastSegment st.request.pathname)).records k = some t1 := hr
      obtain ⟨c, hc1, e1⟩ := h4 k t1 (Store.records_delete _ _ _ _ hr)
      exact ⟨c, by simp only [List.filterMap_append, List.mem_append]; exact Or.inl hc1, e1⟩

/-- The invariant holds after every sequence of create and delete requests, started on the
empty namespace, in which no two creates read the same clock value. -/
theorem runRequests_inv (steps : List Invocation)
    (hreq : ∀ st ∈ steps,
      isCreateRequest st.request = true ∨ isDeleteRequest st.request = true)
    (hclock : (steps.filterMap createClock).Nodup) :
    RegistryInv steps (runRequests steps Store.empty) := by
  induction steps using List.reverseRecOn with
  | nil => exact RegistryInv.empty
  | append_singleton pre st ih =>
    rw [runRequests_snoc]
    rw [List.filterMap_append, List.nodup_append] at hclock
    obtain ⟨hn1, _, hdisj⟩ := hclock
    refine RegistryInv.step (ih (fun x hx => hreq x (by simp [hx])) hn1) st
      (hreq st (by simp)) ?_
    intro c hc hmem
    exact hdisj hmem (by simp [List.filterMap_cons, hc])

/-- C8 as stated fails: two create requests that read the same clock value 1000 get the
same id, so the index lists `template_1000` twice and the second create overwrites the
record written by the first. -/
theorem index_duplicate_same_millisecond_counterexample :
    (∀ st ∈ [createAt "A" 1000, createAt "B" 1000],
      isCreateRequest st.request = true ∨ isDeleteRequest st.request = true) ∧
    (runRequests [createAt "A" 1000, createAt "B" 1000] Store.empty).getIndex =
      ["template_1000", "template_1000"] ∧
    ¬ (runRequests [createAt "A" 1000, createAt "B" 1000] Store.empty).getIndex.Nodup ∧
    createdId (createAt "B" 1000) = some "template_1000" ∧
    "template_1000" ∈ (runRequests [createAt "A" 1000] Store.empty).getIndex ∧
    storedName (runRequests [createAt "A" 1000] Store.empty) "template_1000" = some "A" ∧
    storedName (runRequests [createAt "A" 1000, createAt "B" 1000] Store.empty)
      "template_1000" = some "B" := by
  decide

/-- C8, amended (no two creates read the same clock value): for every sequence of create
and delete requests started on the empty namespace in which the clock readings used by the
creates are pairwise distinct, the ids in the index are pairwise distinct, every template
created and not deleted afterwards occurs in the index exactly once, every id in the index
is such a template and resolves to a stored record, and at each create the new id is
neither in the index nor the key of a stored record. -/
theorem index_ids_unique (steps : List Invocation)
    (hreq : ∀ st ∈ steps,
      isCreateRequest st.request = true ∨ isDeleteRequest st.request = true)
    (hclock : (steps.filterMap createClock).Nodup) :
    (runRequests steps Store.empty).getIndex.Nodup ∧
    (∀ id, LiveAfter steps id → (runRequests steps Store.empty).getIndex.count id = 1) ∧
    (∀ id ∈ (runRequests steps Store.empty).getIndex,
      LiveAfter steps id ∧
        ∃ t, (runRequests steps Store.empty).get id = some (Value.template t)) ∧
    (∀ pre st post id, steps = pre ++ st :: post → createdId st = some id →
      id ∉ (runRequests pre Store.empty).getIndex ∧
        (runRequests pre Store.empty).get id = none) := by
  have hinv := runRequests_inv steps hreq hclock
  obtain ⟨h1, h2, h3, _⟩ := hinv
  refine ⟨h1, ?_, ?_, ?_⟩
  · intro id hl
    exact List.count_eq_one_of_mem h1 (h3 id hl)
  · intro id hm
    obtain ⟨hl, t, ht⟩ := h2 id hm
    refine ⟨hl, t, ?_⟩
    obtain ⟨c, _, e⟩ := liveAfter_clock hl
    unfold Store.get
    rw [e] at ht ⊢
    simp [templateId_ne_index_key c, ht]
  · intro pre st post id he hc
    subst he
    obtain ⟨c, hc1, e⟩ := createdId_eq_some hc
    have hpre := runRequests_inv pre (fun x hx => hreq x (by simp [hx]))
      (by
        rw [List.filterMap_append] at hclock
        exact (List.nodup_append.1 hclock).1)
    have hfresh : c ∉ pre.filterMap createClock := by
      intro hmem
      rw [List.filterMap_append, List.nodup_append] at hclock
      exact hclock.2.2 hmem (by simp [List.filterMap_cons, hc1])
    rw [e]
    exact RegistryInv.fresh hpre hfresh

theorem index_ids_unique_witness :
    (∀ st ∈ [createAt "A" 1000, createAt "B" 1001, deleteOf "template_1000"],
      isCreateRequest st.request = true ∨ isDeleteRequest st.request = true) ∧
    ([createAt "A" 1000, createAt "B" 1001, deleteOf "template_1000"].filterMap
      createClock).Nodup ∧
    (runRequests [createAt "A" 1000, createAt "B" 1001, deleteOf "template_1000"]
      Store.empty).getIndex.Nodup ∧
    (runRequests [createAt "A" 1000, createAt "B" 1001, deleteOf "template_1000"]
      Store.empty).getIndex = ["template_1001"] :=
  ⟨by decide, by decide,
    (index_ids_unique [createAt "A" 1000, createAt "B" 1001, deleteOf "template_1000"]
      (by decide) (by decide)).1,
    by decide⟩

end Autorecurring

